import Mathlib

/-!
Shallow embedding of the USDT deposit-to-balance reconciliation core of the
tarot bot repository: src/services/payment.py, src/services/wallet.py,
src/services/chain_monitor.py, src/services/quota.py and the SQLite schema
in src/db/database.py.

Modelling conventions:
- every SQLite table is a Lean list of row structures; rows are inserted at
  the front, so the head of a filtered list corresponds to the SQL
  `ORDER BY created_at DESC LIMIT 1` read on tables whose insertion order is
  chronological;
- REAL amounts are modelled as rationals (the algebraic content of the SQL
  arithmetic); TEXT timestamps are natural numbers counting seconds;
- Python `None` becomes `Option.none`; Python truthiness on strings is the
  test against the empty string, and on `Optional[int]` the value is falsy
  when it is `None` or `0` (this matters in `get_or_create_wallet`);
- a raised exception (ValueError, sqlite3.IntegrityError) is an explicit
  error value; the store passed back with it is the store as mutated before
  the raise, exactly as the SQLite connection would retain it;
- nondeterministic inputs of the source (wall clock, generated order ids,
  RPC answers) are explicit parameters.
-/

inductive OrderStatus
  | pending
  | confirmed
  | expired
  | swept
deriving DecidableEq, Repr

/-- Row of the user_balances table (user_id PRIMARY KEY). -/
structure BalanceRow where
  user_id : String
  balance : ℚ
  total_recharged : ℚ
  total_spent : ℚ
deriving DecidableEq, Repr

/-- Row of the user_wallets table (user_id PRIMARY KEY, wallet_index UNIQUE,
address UNIQUE). The index is an integer because the source computes it by
Python integer arithmetic involving -1. -/
structure WalletRow where
  user_id : String
  wallet_index : Int
  address : String
deriving DecidableEq, Repr

/-- Row of the recharge_orders table. -/
structure OrderRow where
  user_id : String
  order_id : String
  amount : ℚ
  deposit_address : String
  status : OrderStatus
  tx_hash : Option String
  sweep_tx_hash : Option String
  from_address : Option String
  created_at : Nat
  confirmed_at : Option Nat
  expired_at : Option Nat
deriving DecidableEq, Repr

/-- Row of the spend_records table (append-only). -/
structure SpendRecord where
  user_id : String
  feature : String
  amount : ℚ
deriving DecidableEq, Repr

/-- Name of a counter column of the daily_usage table, the usage_field of
the _FEATURE_CONFIG entries in src/services/quota.py. -/
inductive UsageField
  | tarot_count
  | chat_count
deriving DecidableEq, Repr

/-- Row of the daily_usage table (PRIMARY KEY (user_id, usage_date)). -/
structure UsageRow where
  user_id : String
  usage_date : String
  tarot_count : Nat
  chat_count : Nat
deriving DecidableEq, Repr

/-- The whole persistent store of the payment core. -/
structure Store where
  user_balances : List BalanceRow
  user_wallets : List WalletRow
  recharge_orders : List OrderRow
  spend_records : List SpendRecord
  daily_usage : List UsageRow
deriving DecidableEq, Repr

def emptyStore : Store :=
  { user_balances := [], user_wallets := [], recharge_orders := [],
    spend_records := [], daily_usage := [] }

/-! Wallet manager, src/services/wallet.py. -/

/-- Python `v or d` on an `Optional[int]`: both `None` and `0` are falsy.
This models line 91 of src/services/wallet.py,
`(max_row["max_idx"] or -1) + 1`. -/
def py_or_else (v : Option Int) (d : Int) : Int :=
  match v with
  | none => d
  | some x => if x = 0 then d else x

/-- SELECT MAX(wallet_index) FROM user_wallets: none on an empty table. -/
def max_wallet_index : List WalletRow → Option Int
  | [] => none
  | w :: ws =>
    match max_wallet_index ws with
    | none => some w.wallet_index
    | some m => some (max w.wallet_index m)

inductive DBError
  | integrityError
deriving DecidableEq, Repr

/-- WalletManager.get_or_create_wallet (src/services/wallet.py lines 74-113).
The address derivation (eth-account BIP-44, external library) is a parameter
`derive`. The INSERT is subject to the PRIMARY KEY on user_id and the UNIQUE
constraints on wallet_index and address of the user_wallets table; a
violation raises sqlite3.IntegrityError, modelled as `DBError`. -/
def get_or_create_wallet (derive : Int → String) (s : Store) (uid : String) :
    Except DBError (WalletRow × Store) :=
  match s.user_wallets.find? (fun w => decide (w.user_id = uid)) with
  | some w => .ok (w, s)
  | none =>
    let nextIndex := py_or_else (max_wallet_index s.user_wallets) (-1) + 1
    let address := derive nextIndex
    if s.user_wallets.any (fun w =>
        decide (w.user_id = uid ∨ w.wallet_index = nextIndex ∨ w.address = address)) then
      .error .integrityError
    else
      .ok (⟨uid, nextIndex, address⟩,
           { s with user_wallets := ⟨uid, nextIndex, address⟩ :: s.user_wallets })

/-- ASCII lowercasing of an address, the semantics of both Python
str.lower and SQLite LOWER on the hexadecimal addresses this system
handles (String.mk keeps the definition kernel-reducible). -/
def sql_lower (s : String) : String := String.mk (s.data.map Char.toLower)

/-- WalletManager.get_user_by_address (src/services/wallet.py lines 115-132):
SELECT user_id FROM user_wallets WHERE LOWER(address) = lowercased input.
The in-memory cache is a read-through optimization over the same table and
is not modelled separately. -/
def get_user_by_address (s : Store) (address : String) : Option String :=
  (s.user_wallets.find? (fun w =>
    decide (sql_lower w.address = sql_lower address))).map
    (fun w => w.user_id)

/-- WalletManager.get_wallet_by_user (src/services/wallet.py lines 134-140). -/
def get_wallet_by_user (s : Store) (uid : String) : Option WalletRow :=
  s.user_wallets.find? (fun w => decide (w.user_id = uid))

/-! Payment manager, src/services/payment.py. -/

/-- PaymentManager.get_balance (lines 30-36): balance of the unique row for
the user, 0.0 when absent. -/
def get_balance (s : Store) (uid : String) : ℚ :=
  match s.user_balances.find? (fun r => decide (r.user_id = uid)) with
  | some r => r.balance
  | none => 0

/-- PaymentManager.get_balance_info (lines 38-51): the full row, with the
zero defaults when absent. -/
def get_balance_info (s : Store) (uid : String) : BalanceRow :=
  match s.user_balances.find? (fun r => decide (r.user_id = uid)) with
  | some r => r
  | none => ⟨uid, 0, 0, 0⟩

/-- PaymentManager.add_balance (lines 57-79): raises ValueError when the
amount is not positive, otherwise INSERT .. ON CONFLICT(user_id) DO UPDATE
adding the amount to both balance and total_recharged. -/
def add_balance (s : Store) (uid : String) (amount : ℚ) : Except Unit Store :=
  if amount ≤ 0 then .error ()
  else .ok { s with
    user_balances :=
    if s.user_balances.any (fun r => decide (r.user_id = uid)) then
      s.user_balances.map (fun r =>
        if r.user_id = uid then
          { r with balance := r.balance + amount,
                   total_recharged := r.total_recharged + amount }
        else r)
    else ⟨uid, amount, amount, 0⟩ :: s.user_balances }

/-- PaymentManager.deduct_balance (lines 85-116): a non-positive amount is a
trivially successful no-op; an insufficient balance fails closed; otherwise
one UPDATE moves the amount from balance to total_spent and one INSERT
appends the spend record. -/
def deduct_balance (s : Store) (uid : String) (amount : ℚ) (feature : String) :
    Bool × Store :=
  if amount ≤ 0 then (true, s)
  else if get_balance s uid < amount then (false, s)
  else
    let s1 : Store := { s with
      user_balances := s.user_balances.map (fun r =>
        if r.user_id = uid then
          { r with balance := r.balance - amount,
                   total_spent := r.total_spent + amount }
        else r) }
    (true, { s1 with spend_records := ⟨uid, feature, amount⟩ :: s1.spend_records })

/-- PaymentManager.get_pending_order_by_address (lines 148-157): the most
recent pending order for the address; rows are kept newest first. -/
def get_pending_order_by_address (s : Store) (addr : String) : Option OrderRow :=
  (s.recharge_orders.filter (fun o =>
    decide (o.deposit_address = addr ∧ o.status = OrderStatus.pending))).head?

/-- Durable duplicate guard of confirm_order_by_address (lines 170-177):
the tx_hash already belongs to a confirmed or swept order. -/
def tx_hash_used (s : Store) (tx : String) : Prop :=
  ∃ o ∈ s.recharge_orders, o.tx_hash = some tx ∧
    (o.status = OrderStatus.confirmed ∨ o.status = OrderStatus.swept)

instance (s : Store) (tx : String) : Decidable (tx_hash_used s tx) := by
  unfold tx_hash_used; exact List.decidableBEx _ _

/-- Outcome of confirm_order_by_address: a propagated ValueError from
add_balance, a None return, or the returned order dict (its user_id and
order_id fields, which are what the caller reads). -/
inductive ConfirmResult
  | raised
  | skipped
  | ok (user_id : String) (order_id : String)
deriving DecidableEq, Repr

/-- PaymentManager.confirm_order_by_address (lines 159-221). `now` is the
wall clock and `freshOrderId` the generated id used when no pending order
exists. The Python `if tx_hash:` truthiness test is the comparison with the
empty string. Line 216 recovers the user id from the order dict, falling
back to a fresh pending lookup when that field is falsy, and line 217 skips
the credit when the result is still falsy. -/
def confirm_order_by_address (s : Store) (depositAddress : String) (amount : ℚ)
    (txHash : String) (fromAddr : String) (now : Nat) (freshOrderId : String) :
    ConfirmResult × Store :=
  if txHash ≠ "" ∧ tx_hash_used s txHash then (.skipped, s)
  else
    match get_pending_order_by_address s depositAddress with
    | some o =>
      let s1 : Store := { s with
        recharge_orders := s.recharge_orders.map (fun r =>
          if r.order_id = o.order_id then
            { r with status := OrderStatus.confirmed, amount := amount,
                     tx_hash := some txHash, from_address := some fromAddr,
                     confirmed_at := some now }
          else r) }
      let uid := if o.user_id ≠ "" then o.user_id
        else
          match get_pending_order_by_address s1 depositAddress with
          | some p => p.user_id
          | none => ""
      if uid ≠ "" then
        match add_balance s1 uid amount with
        | .error _ => (.raised, s1)
        | .ok s2 => (.ok o.user_id o.order_id, s2)
      else (.ok o.user_id o.order_id, s1)
    | none =>
      match get_user_by_address s depositAddress with
      | none => (.skipped, s)
      | some uid =>
        if uid = "" then (.skipped, s)
        else
          let newOrder : OrderRow :=
            ⟨uid, freshOrderId, amount, depositAddress, OrderStatus.confirmed,
             some txHash, none, some fromAddr, now, some now, none⟩
          let s1 : Store := { s with recharge_orders := newOrder :: s.recharge_orders }
          match add_balance s1 uid amount with
          | .error _ => (.raised, s1)
          | .ok s2 => (.ok uid freshOrderId, s2)

/-- PaymentManager.mark_order_swept (lines 223-232). -/
def mark_order_swept (s : Store) (oid : String) (sweepTx : String) : Store :=
  { s with recharge_orders := s.recharge_orders.map (fun o =>
      if o.order_id = oid then
        { o with status := OrderStatus.swept, sweep_tx_hash := some sweepTx }
      else o) }

/-- PaymentManager.expire_old_orders (lines 245-257): every pending order
whose created_at plus the TTL lies strictly before now becomes expired with
expired_at stamped; every other row is untouched. -/
def expire_old_orders (s : Store) (ttl : Nat) (now : Nat) : Store :=
  { s with recharge_orders := s.recharge_orders.map (fun o =>
      if o.status = OrderStatus.pending ∧ o.created_at + ttl < now then
        { o with status := OrderStatus.expired, expired_at := some now }
      else o) }

/-! Chain monitor, src/services/chain_monitor.py. -/

/-- Block-range and cursor logic of ChainMonitor._check_new_transfers
(lines 125-142). Given the stored cursor, the fetched head and whether any
hot-wallet address is known, it returns the queried block range (none when
eth_getLogs is not called at all) and the new cursor. The cursor advance
does not depend on the logs returned, so the logs are not a parameter. -/
def check_new_transfers (lastBlock : Nat) (currentBlock : Nat)
    (hasAddresses : Bool) : Option (Nat × Nat) × Nat :=
  if currentBlock ≤ lastBlock then (none, lastBlock)
  else if hasAddresses = false then (none, currentBlock)
  else
    let fromBlock := lastBlock + 1
    let toBlock := min currentBlock (fromBlock + 4999)
    (some (fromBlock, toBlock), toBlock)

/-- Answers of the BSC RPC endpoints during one sweep attempt:
eth_getTransactionCount, eth_gasPrice, eth_getBalance, and whether
eth_sendRawTransaction returns a well-formed transaction hash. -/
structure SweepEnv where
  nonce : Option Nat
  gas_price : Option Nat
  bnb_balance : Nat
  broadcast_accepts : Bool
  sweep_tx_hash : String
deriving DecidableEq, Repr

/-- ChainMonitor._sweep_to_cold (lines 205-273). Returns the resulting store
and the broadcast sweep transaction hash, none when nothing was broadcast.
Every early return of the source (cold wallet unconfigured, unresolvable
user, missing wallet row, failed nonce or gas price fetch, insufficient BNB
for the 60000 gas limit, rejected broadcast) leaves the store untouched. -/
def sweep_to_cold (env : SweepEnv) (coldAddress : String) (s : Store)
    (hotAddress : String) (_usdtAmount : ℚ) (depositTxHash : String) :
    Store × Option String :=
  if coldAddress = "" then (s, none)
  else
    match get_user_by_address s hotAddress with
    | none => (s, none)
    | some uid =>
      if uid = "" then (s, none)
      else
        match get_wallet_by_user s uid with
        | none => (s, none)
        | some _wallet =>
          match env.nonce, env.gas_price with
          | some _nonce, some gasPrice =>
            if env.bnb_balance < 60000 * gasPrice then (s, none)
            else if env.broadcast_accepts then
              match (s.recharge_orders.filter (fun o =>
                  decide (o.deposit_address = hotAddress ∧
                          o.tx_hash = some depositTxHash))).head? with
              | some o => (mark_order_swept s o.order_id env.sweep_tx_hash,
                           some env.sweep_tx_hash)
              | none => (s, some env.sweep_tx_hash)
            else (s, none)
          | _, _ => (s, none)

/-! Quota manager, src/services/quota.py. -/

/-- One entry of _FEATURE_CONFIG: daily free limit, unit price, and the
daily_usage column counting the uses (none for tarot_detail). -/
structure FeatureConfig where
  free_limit : Nat
  price : ℚ
  usage_field : Option UsageField
deriving DecidableEq, Repr

/-- The _FEATURE_CONFIG dict (src/services/quota.py lines 38-42), with the
configured limits and prices as parameters. -/
def feature_config (freeTarotDaily freeChatDaily : Nat)
    (priceTarotReading priceTarotDetail priceAiChat : ℚ) :
    String → Option FeatureConfig := fun feature =>
  if feature = "tarot_reading" then
    some ⟨freeTarotDaily, priceTarotReading, some UsageField.tarot_count⟩
  else if feature = "tarot_detail" then
    some ⟨0, priceTarotDetail, none⟩
  else if feature = "ai_chat" then
    some ⟨freeChatDaily, priceAiChat, some UsageField.chat_count⟩
  else none

/-- QuotaManager._get_daily_usage (lines 184-190). -/
def get_daily_usage (s : Store) (uid : String) (today : String)
    (fld : UsageField) : Nat :=
  match s.daily_usage.find? (fun r =>
      decide (r.user_id = uid ∧ r.usage_date = today)) with
  | some r =>
    match fld with
    | .tarot_count => r.tarot_count
    | .chat_count => r.chat_count
  | none => 0

/-- Bump the given counter of one usage row. -/
def bump_usage_field (fld : UsageField) (r : UsageRow) : UsageRow :=
  match fld with
  | .tarot_count => { r with tarot_count := r.tarot_count + 1 }
  | .chat_count => { r with chat_count := r.chat_count + 1 }

/-- QuotaManager._increment_usage (lines 192-202):
INSERT .. VALUES (uid, today, 1) ON CONFLICT(user_id, usage_date) DO UPDATE
SET field = field + 1; the other counter defaults to 0 on insert. -/
def increment_usage (s : Store) (uid : String) (today : String)
    (fld : UsageField) : Store :=
  { s with
    daily_usage :=
    if s.daily_usage.any (fun r =>
        decide (r.user_id = uid ∧ r.usage_date = today)) then
      s.daily_usage.map (fun r =>
        if r.user_id = uid ∧ r.usage_date = today then bump_usage_field fld r
        else r)
    else
      (bump_usage_field fld ⟨uid, today, 0, 0⟩) :: s.daily_usage }

/-- QuotaManager._build_insufficient_message (lines 204-227). The numeric
formatting of the source (Python f-string, :.4f) is rendered through the
standard ToString of the rational amounts. -/
def build_insufficient_message (feature : String) (price : ℚ) (balance : ℚ)
    (freeLimit : Nat) : String :=
  let name :=
    if feature = "tarot_reading" then "塔罗占卜"
    else if feature = "tarot_detail" then "深度解读"
    else if feature = "ai_chat" then "AI 对话"
    else feature
  let msg1 :=
    if 0 < freeLimit then
      "今天的免费" ++ name ++ "次数已经用完了呢。\n\n继续使用需要 " ++
        toString price ++ " USDT，"
    else "使用" ++ name ++ "功能需要 " ++ toString price ++ " USDT，"
  let msg2 :=
    if 0 < balance then
      msg1 ++ "你当前余额 " ++ toString balance ++ " USDT，还差一点点。\n\n"
    else msg1 ++ "你还没有充值过呢。\n\n"
  msg2 ++ "使用 /recharge 充值 USDT 即可解锁~ 💎"

/-- Result record of QuotaManager.check_and_deduct (lines 27-34). -/
structure QuotaResult where
  allowed : Bool
  is_free : Bool
  cost : ℚ
  remaining_free : Int
  balance : ℚ
  message : String
deriving DecidableEq, Repr

/-- Today's use count as computed on lines 66-68: 0 when the feature has no
usage field. -/
def used_count (cfg : FeatureConfig) (s : Store) (uid : String)
    (today : String) : Nat :=
  match cfg.usage_field with
  | some fld => get_daily_usage s uid today fld
  | none => 0

/-- QuotaManager.check_and_deduct (src/services/quota.py lines 48-129).
`lookup` is the _FEATURE_CONFIG dict and `today` the current calendar date.
An unknown feature is allowed for free; a use inside the free limit bumps
the counter and is free; past the limit the unit price is checked against
the balance and either debited (also bumping the counter) or denied with
the insufficiency message. -/
def check_and_deduct (lookup : String → Option FeatureConfig)
    (feature : String) (s : Store) (uid : String) (today : String) :
    QuotaResult × Store :=
  match lookup feature with
  | none => (⟨true, true, 0, -1, 0, ""⟩, s)
  | some cfg =>
    let used := used_count cfg s uid today
    if 0 < cfg.free_limit ∧ used < cfg.free_limit then
      let s1 :=
        match cfg.usage_field with
        | some fld => increment_usage s uid today fld
        | none => s
      (⟨true, true, 0, (cfg.free_limit : Int) - used - 1, get_balance s1 uid, ""⟩, s1)
    else
      let bal := get_balance s uid
      if bal < cfg.price then
        (⟨false, false, cfg.price, 0, bal,
          build_insufficient_message feature cfg.price bal cfg.free_limit⟩, s)
      else
        match deduct_balance s uid cfg.price feature with
        | (false, s1) =>
          (⟨false, false, cfg.price, 0, bal, "扣费时出现问题，请稍后重试。"⟩, s1)
        | (true, s1) =>
          let s2 :=
            match cfg.usage_field with
            | some fld => increment_usage s1 uid today fld
            | none => s1
          (⟨true, false, cfg.price, 0, get_balance s2 uid, ""⟩, s2)

/-! Operation sequences over the balance ledger, for the balance invariant. -/

/-- One credit or debit operation against the ledger. -/
inductive Op
  | credit (uid : String) (amount : ℚ)
  | debit (uid : String) (amount : ℚ) (feature : String)
deriving DecidableEq, Repr

/-- Apply one operation: a raised ValueError from add_balance leaves the
store as it was (the raise happens before any SQL). -/
def apply_op (s : Store) (op : Op) : Store :=
  match op with
  | .credit uid amount =>
    match add_balance s uid amount with
    | .ok s1 => s1
    | .error _ => s
  | .debit uid amount feature => (deduct_balance s uid amount feature).2

/-- Ledger invariant of the spec: every balance row satisfies
balance = total_recharged - total_spent. -/
def BalanceInv (s : Store) : Prop :=
  ∀ r ∈ s.user_balances, r.balance = r.total_recharged - r.total_spent

/-! Helper lemmas shared by the claim proofs. -/

theorem head?_eq_some_mem {α} {l : List α} {a : α} (h : l.head? = some a) :
    a ∈ l := by
  cases l with
  | nil => simp at h
  | cons x t => simp only [List.head?_cons, Option.some.injEq] at h; subst h; exact List.mem_cons_self x t

theorem find?_map_update {α} (c : α → Prop) [DecidablePred c] (upd : α → α)
    (hupd : ∀ r, c (upd r) ↔ c r) (l : List α) :
    (l.map (fun r => if c r then upd r else r)).find? (fun r => decide (c r)) =
      (l.find? (fun r => decide (c r))).map upd := by
  induction l with
  | nil => rfl
  | cons r t ih =>
    by_cases h : c r
    · have h1 : decide (c (upd r)) = true := decide_eq_true ((hupd r).mpr h)
      have h2 : decide (c r) = true := decide_eq_true h
      simp only [List.map_cons, List.find?_cons, if_pos h, h1, h2]
      rfl
    · have h1 : decide (c r) = false := decide_eq_false h
      simp only [List.map_cons, List.find?_cons, if_neg h, h1, ih]

theorem forall_mem_map_update {α} (c : α → Prop) [DecidablePred c]
    (upd : α → α) (P : α → Prop) (l : List α)
    (h : ∀ r ∈ l, P r) (hupd : ∀ r, P r → P (upd r)) :
    ∀ r ∈ l.map (fun r => if c r then upd r else r), P r := by
  intro r hr
  rcases List.mem_map.mp hr with ⟨x, hx, rfl⟩
  by_cases hc : c x
  · simpa [hc] using hupd x (h x hx)
  · simpa [hc] using h x hx

theorem get_balance_congr {s1 s2 : Store} (uid : String)
    (h : s1.user_balances = s2.user_balances) :
    get_balance s1 uid = get_balance s2 uid := by
  unfold get_balance; rw [h]

theorem add_balance_frame {s s2 : Store} {uid : String} {amount : ℚ}
    (h : add_balance s uid amount = .ok s2) :
    s2.recharge_orders = s.recharge_orders ∧ s2.user_wallets = s.user_wallets ∧
    s2.spend_records = s.spend_records ∧ s2.daily_usage = s.daily_usage := by
  unfold add_balance at h
  split at h
  · exact absurd h (by simp)
  · simp only [Except.ok.injEq] at h
    subst h
    exact ⟨rfl, rfl, rfl, rfl⟩

theorem add_balance_delta {s s2 : Store} {uid : String} {amount : ℚ}
    (h : add_balance s uid amount = .ok s2) :
    get_balance s2 uid = get_balance s uid + amount ∧
    (get_balance_info s2 uid).total_recharged =
      (get_balance_info s uid).total_recharged + amount := by
  unfold add_balance at h
  split at h
  · exact absurd h (by simp)
  · simp only [Except.ok.injEq] at h
    subst h
    by_cases hany : s.user_balances.any (fun r => decide (r.user_id = uid)) = true
    · have hmap := find?_map_update (fun r : BalanceRow => r.user_id = uid)
        (fun r => { r with balance := r.balance + amount,
                           total_recharged := r.total_recharged + amount })
        (fun _ => Iff.rfl) s.user_balances
      rcases List.any_eq_true.mp hany with ⟨x, hxmem, hx⟩
      have hsome : (s.user_balances.find? (fun r => decide (r.user_id = uid))).isSome := by
        exact List.find?_isSome.mpr ⟨x, hxmem, hx⟩
      rcases Option.isSome_iff_exists.mp hsome with ⟨r, hr⟩
      unfold get_balance get_balance_info
      rw [if_pos hany]
      simp only [hmap, hr]
      exact ⟨rfl, rfl⟩
    · have hnone : s.user_balances.find? (fun r => decide (r.user_id = uid)) = none := by
        rw [List.find?_eq_none]
        intro x hx hcon
        exact hany (List.any_eq_true.mpr ⟨x, hx, hcon⟩)
      unfold get_balance get_balance_info
      rw [if_neg hany]
      simp only [hnone, List.find?_cons]
      simp

theorem deduct_balance_success_delta {s : Store} {uid : String} {amount : ℚ}
    (feature : String) (hpos : 0 < amount)
    (hsuf : amount ≤ get_balance s uid) :
    (deduct_balance s uid amount feature).1 = true ∧
    get_balance (deduct_balance s uid amount feature).2 uid =
      get_balance s uid - amount ∧
    (get_balance_info (deduct_balance s uid amount feature).2 uid).total_spent =
      (get_balance_info s uid).total_spent + amount ∧
    (deduct_balance s uid amount feature).2.spend_records =
      ⟨uid, feature, amount⟩ :: s.spend_records := by
  unfold deduct_balance
  rw [if_neg (not_le.mpr hpos), if_neg (not_lt.mpr hsuf)]
  have hmap := find?_map_update (fun r : BalanceRow => r.user_id = uid)
    (fun r => { r with balance := r.balance - amount,
                       total_spent := r.total_spent + amount })
    (fun _ => Iff.rfl) s.user_balances
  have hsome : ∃ r, s.user_balances.find? (fun r => decide (r.user_id = uid)) = some r := by
    cases hfind : s.user_balances.find? (fun r => decide (r.user_id = uid)) with
    | none =>
      exfalso
      have hzero : get_balance s uid = 0 := by unfold get_balance; rw [hfind]
      rw [hzero] at hsuf
      exact absurd (lt_of_lt_of_le hpos hsuf) (lt_irrefl 0)
    | some r => exact ⟨r, rfl⟩
  rcases hsome with ⟨r, hr⟩
  refine ⟨rfl, ?_, ?_, rfl⟩
  · unfold get_balance
    simp only [hmap, hr]
    rfl
  · unfold get_balance_info
    simp only [hmap, hr]
    rfl

/-! Small characterization lemmas for the poll-cycle cursor. -/

theorem check_new_transfers_skip {last current : Nat} (b : Bool)
    (h : current ≤ last) : check_new_transfers last current b = (none, last) := by
  unfold check_new_transfers
  rw [if_pos h]

theorem check_new_transfers_go {last current : Nat} (h : last < current) :
    check_new_transfers last current true =
      (some (last + 1, min current (last + 5000)), min current (last + 5000)) := by
  unfold check_new_transfers
  rw [if_neg (not_le.mpr h), if_neg (by simp : ¬ ((true : Bool) = false))]

theorem check_new_transfers_empty {last current : Nat} (h : last < current) :
    check_new_transfers last current false = (none, current) := by
  unfold check_new_transfers
  rw [if_neg (not_le.mpr h), if_pos rfl]

theorem check_new_transfers_mono (last current : Nat) (b : Bool) :
    last ≤ (check_new_transfers last current b).2 := by
  by_cases h1 : current ≤ last
  · rw [check_new_transfers_skip b h1]
  · have hlt := not_le.mp h1
    cases b with
    | false =>
      rw [check_new_transfers_empty hlt]
      exact le_of_lt hlt
    | true =>
      rw [check_new_transfers_go hlt]
      exact le_min (le_of_lt hlt) (by omega)

theorem check_new_transfers_query {last current : Nat} {b : Bool}
    {f t : Nat} (h : (check_new_transfers last current b).1 = some (f, t)) :
    f = last + 1 ∧ t = min current (last + 5000) ∧
    (check_new_transfers last current b).2 = t := by
  by_cases h1 : current ≤ last
  · rw [check_new_transfers_skip b h1] at h
    exact absurd h (by simp)
  · have hlt := not_le.mp h1
    cases b with
    | false =>
      rw [check_new_transfers_empty hlt] at h
      exact absurd h (by simp)
    | true =>
      rw [check_new_transfers_go hlt] at h ⊢
      simp only [Option.some.injEq, Prod.mk.injEq] at h
      exact ⟨h.1.symm, h.2.symm, h.2⟩

/-- C5 counterexample: with the head 6000 blocks ahead of the cursor and no
hot-wallet address known, the cycle issues no transfer-log query at all and
jumps the cursor straight to the head, not to the upper bound of the claimed
window [last_block+1, last_block+5000]. -/
theorem check_new_transfers_no_address_counterexample :
    0 < 6000 ∧
    check_new_transfers 0 6000 false ≠
      (some (0 + 1, min 6000 (0 + 5000)), min 6000 (0 + 5000)) ∧
    check_new_transfers 0 6000 false = (none, 6000) := by
  refine ⟨by decide, ?_, ?_⟩ <;> decide

/-- C5 (amended): if the head does not exceed the cursor the cycle does
nothing; otherwise, when at least one hot-wallet address is known the query
covers exactly [last_block+1, min(head, last_block+5000)] and the cursor
advances to that upper bound, while with no known address no query is made
and the cursor jumps to the head; in all cases the cursor never decreases,
every issued query has exactly that shape, and the next issued query starts
strictly above the previous upper bound, so no block range is queried
twice. -/
theorem check_new_transfers_cursor_spec (last current : Nat) (b : Bool) :
    (current ≤ last → check_new_transfers last current b = (none, last)) ∧
    (last < current → check_new_transfers last current true =
      (some (last + 1, min current (last + 5000)), min current (last + 5000))) ∧
    (last < current → check_new_transfers last current false = (none, current)) ∧
    last ≤ (check_new_transfers last current b).2 ∧
    (∀ f t, (check_new_transfers last current b).1 = some (f, t) →
      f = last + 1 ∧ t = min current (last + 5000) ∧
      (check_new_transfers last current b).2 = t ∧
      (∀ current2 b2 f2 t2,
        (check_new_transfers t current2 b2).1 = some (f2, t2) → t < f2)) := by
  refine ⟨fun h => check_new_transfers_skip b h,
          fun h => check_new_transfers_go h,
          fun h => check_new_transfers_empty h,
          check_new_transfers_mono last current b,
          fun f t h => ?_⟩
  rcases check_new_transfers_query h with ⟨hf, ht, hsnd⟩
  refine ⟨hf, ht, hsnd, fun current2 b2 f2 t2 h2 => ?_⟩
  rcases check_new_transfers_query h2 with ⟨hf2, _, _⟩
  omega

theorem check_new_transfers_cursor_spec_witness :
    check_new_transfers 10 6000 true = (some (10 + 1, min 6000 (10 + 5000)), min 6000 (10 + 5000)) :=
  (check_new_transfers_cursor_spec 10 6000 true).2.1 (by decide)

/-- C10: deduct_balance with a non-positive amount returns True and performs
no state change at all: no balance row is touched and no spend record is
appended. -/
theorem deduct_balance_nonpositive_noop (s : Store) (uid : String)
    (amount : ℚ) (feature : String) (h : amount ≤ 0) :
    deduct_balance s uid amount feature = (true, s) := by
  unfold deduct_balance
  rw [if_pos h]

theorem deduct_balance_nonpositive_noop_witness :
    deduct_balance emptyStore "user1" 0 "ai_chat" = (true, emptyStore) :=
  deduct_balance_nonpositive_noop emptyStore "user1" 0 "ai_chat" (by decide)

/-- C4: with a positive amount exceeding the current balance, deduct_balance
returns False and leaves the store unchanged: no partial debit, the balance
row untouched and no spend record appended. -/
theorem deduct_balance_insufficient_no_debit (s : Store) (uid : String)
    (amount : ℚ) (feature : String) (hpos : 0 < amount)
    (hins : get_balance s uid < amount) :
    deduct_balance s uid amount feature = (false, s) := by
  unfold deduct_balance
  rw [if_neg (not_le.mpr hpos), if_pos hins]

theorem deduct_balance_insufficient_no_debit_witness :
    deduct_balance ⟨[⟨"user1", 1, 1, 0⟩], [], [], [], []⟩ "user1" 2 "tarot_detail" =
      (false, ⟨[⟨"user1", 1, 1, 0⟩], [], [], [], []⟩) :=
  deduct_balance_insufficient_no_debit ⟨[⟨"user1", 1, 1, 0⟩], [], [], [], []⟩
    "user1" 2 "tarot_detail" (by decide) (by decide)

/-- C8: when the deposit address has no pending order and resolves to no
known user, confirm_order_by_address returns None and leaves the store
unchanged: no order is created or modified and nobody is credited. -/
theorem confirm_order_by_address_unattributable (s : Store) (addr : String)
    (amount : ℚ) (tx fromAddr : String) (now : Nat) (oid : String)
    (hpend : get_pending_order_by_address s addr = none)
    (huser : get_user_by_address s addr = none) :
    confirm_order_by_address s addr amount tx fromAddr now oid =
      (.skipped, s) := by
  unfold confirm_order_by_address
  by_cases hdup : tx ≠ "" ∧ tx_hash_used s tx
  · rw [if_pos hdup]
  · rw [if_neg hdup]
    rw [hpend, huser]

theorem confirm_order_by_address_unattributable_witness :
    confirm_order_by_address emptyStore "0xunknown" 5 "0xhash" "0xsender" 7 "A1" =
      (.skipped, emptyStore) :=
  confirm_order_by_address_unattributable emptyStore "0xunknown" 5 "0xhash"
    "0xsender" 7 "A1" (by decide) (by decide)

/-- C9: when the hot wallet's BNB balance is below the estimated gas cost
60000 * gas_price, the sweep is skipped before signing or broadcasting:
nothing is broadcast and the store is unchanged, so the originating order
keeps its status and the user's balance is untouched. -/
theorem sweep_to_cold_insufficient_gas (env : SweepEnv) (coldAddress : String)
    (s : Store) (hotAddress : String) (amount : ℚ) (depositTxHash : String)
    (gasPrice : Nat) (hgp : env.gas_price = some gasPrice)
    (hbal : env.bnb_balance < 60000 * gasPrice) :
    sweep_to_cold env coldAddress s hotAddress amount depositTxHash =
      (s, none) := by
  unfold sweep_to_cold
  by_cases hc : coldAddress = ""
  · rw [if_pos hc]
  · rw [if_neg hc]
    cases hu : get_user_by_address s hotAddress with
    | none => rfl
    | some uid =>
      dsimp only
      by_cases hue : uid = ""
      · rw [if_pos hue]
      · rw [if_neg hue]
        cases hw : get_wallet_by_user s uid with
        | none => rfl
        | some w =>
          dsimp only
          rw [hgp]
          cases hn : env.nonce with
          | none => rfl
          | some n =>
            dsimp only
            rw [if_pos hbal]

theorem sweep_to_cold_insufficient_gas_witness :
    sweep_to_cold ⟨some 3, some 1000000000, 0, true, "0xsweep"⟩ "0xcold"
      emptyStore "0xhot" 5 "0xdep" = (emptyStore, none) :=
  sweep_to_cold_insufficient_gas ⟨some 3, some 1000000000, 0, true, "0xsweep"⟩
    "0xcold" emptyStore "0xhot" 5 "0xdep" 1000000000 (by decide) (by decide)

/-- C2: evaluation of the wallet-index allocation at the failing input. The
first user of an empty store gets wallet_index 0. On the second user's
request the source computes the next index as (max_idx or -1) + 1; Python
treats the current maximum 0 as falsy, so the expression yields 0 again and
the INSERT violates the UNIQUE(wallet_index) constraint: the second user
gets an IntegrityError instead of index 1. -/
theorem get_or_create_wallet_second_user_integrity_error :
    get_or_create_wallet (fun i => "A" ++ toString i) emptyStore "X" =
      .ok (⟨"X", 0, "A0"⟩,
           { emptyStore with user_wallets := [⟨"X", 0, "A0"⟩] }) ∧
    get_or_create_wallet (fun i => "A" ++ toString i)
      { emptyStore with user_wallets := [⟨"X", 0, "A0"⟩] } "Y" =
      .error .integrityError := by
  exact ⟨rfl, rfl⟩

/-- C7: expire_old_orders transitions exactly the pending orders older than
the TTL to expired (stamping expired_at with the current time), leaves every
other order unchanged, deletes nothing, touches no other table, and is
idempotent, so an expired order never reverts. -/
theorem expire_old_orders_spec (s : Store) (ttl now : Nat) :
    List.Forall₂ (fun o o2 =>
        (o.status = OrderStatus.pending ∧ o.created_at + ttl < now →
          o2 = { o with status := OrderStatus.expired, expired_at := some now }) ∧
        (¬ (o.status = OrderStatus.pending ∧ o.created_at + ttl < now) →
          o2 = o))
      s.recharge_orders (expire_old_orders s ttl now).recharge_orders ∧
    (expire_old_orders s ttl now).recharge_orders.length =
      s.recharge_orders.length ∧
    expire_old_orders (expire_old_orders s ttl now) ttl now =
      expire_old_orders s ttl now ∧
    (expire_old_orders s ttl now).user_balances = s.user_balances ∧
    (expire_old_orders s ttl now).user_wallets = s.user_wallets ∧
    (expire_old_orders s ttl now).spend_records = s.spend_records ∧
    (expire_old_orders s ttl now).daily_usage = s.daily_usage := by
  refine ⟨?_, ?_, ?_, rfl, rfl, rfl, rfl⟩
  · have hshape : (expire_old_orders s ttl now).recharge_orders =
        s.recharge_orders.map (fun o =>
          if o.status = OrderStatus.pending ∧ o.created_at + ttl < now then
            { o with status := OrderStatus.expired, expired_at := some now }
          else o) := rfl
    rw [hshape]
    rw [List.forall₂_map_right_iff]
    rw [List.forall₂_same]
    intro o ho
    constructor
    · intro hcond
      rw [if_pos hcond]
    · intro hcond
      rw [if_neg hcond]
  · exact List.length_map _ _
  · unfold expire_old_orders
    simp only [List.map_map]
    congr 1
    apply List.map_congr_left
    intro o ho
    simp only [Function.comp_apply]
    by_cases hcond : o.status = OrderStatus.pending ∧ o.created_at + ttl < now
    · rw [if_pos hcond]
      rw [if_neg (by simp)]
    · rw [if_neg hcond, if_neg hcond]

theorem expire_old_orders_spec_witness :
    expire_old_orders
        (expire_old_orders
          ⟨[], [], [⟨"u1", "R1", 0, "0xa", .pending, none, none, none, 0, none, none⟩], [], []⟩
          3600 3602)
        3600 3602 =
      expire_old_orders
        ⟨[], [], [⟨"u1", "R1", 0, "0xa", .pending, none, none, none, 0, none, none⟩], [], []⟩
        3600 3602 :=
  (expire_old_orders_spec
    ⟨[], [], [⟨"u1", "R1", 0, "0xa", .pending, none, none, none, 0, none, none⟩], [], []⟩
    3600 3602).2.2.1

theorem add_balance_preserves_inv {s s2 : Store} {uid : String} {amount : ℚ}
    (hinv : BalanceInv s) (h : add_balance s uid amount = .ok s2) :
    BalanceInv s2 := by
  unfold add_balance at h
  split at h
  · exact absurd h (by simp)
  · simp only [Except.ok.injEq] at h
    subst h
    intro r hr
    by_cases hany : s.user_balances.any (fun r => decide (r.user_id = uid)) = true
    · rw [if_pos hany] at hr
      refine forall_mem_map_update (fun r : BalanceRow => r.user_id = uid)
        (fun r => { r with balance := r.balance + amount,
                           total_recharged := r.total_recharged + amount })
        (fun r => r.balance = r.total_recharged - r.total_spent)
        s.user_balances hinv ?_ r hr
      intro x hx
      simp only
      rw [hx]
      ring
    · rw [if_neg hany] at hr
      rcases List.mem_cons.mp hr with hnew | hold
      · subst hnew
        simp
      · exact hinv r hold

theorem apply_op_preserves_inv (s : Store) (op : Op) (hinv : BalanceInv s) :
    BalanceInv (apply_op s op) := by
  cases op with
  | credit uid amount =>
    unfold apply_op
    dsimp only
    cases hab : add_balance s uid amount with
    | error e => exact hinv
    | ok s2 => exact add_balance_preserves_inv hinv hab
  | debit uid amount feature =>
    unfold apply_op deduct_balance
    dsimp only
    by_cases h1 : amount ≤ 0
    · rw [if_pos h1]
      exact hinv
    · rw [if_neg h1]
      by_cases h2 : get_balance s uid < amount
      · rw [if_pos h2]
        exact hinv
      · rw [if_neg h2]
        intro r hr
        refine forall_mem_map_update (fun r : BalanceRow => r.user_id = uid)
          (fun r => { r with balance := r.balance - amount,
                             total_spent := r.total_spent + amount })
          (fun r => r.balance = r.total_recharged - r.total_spent)
          s.user_balances hinv ?_ r hr
        intro x hx
        simp only
        rw [hx]
        ring

/-- C3: the invariant balance = total_recharged - total_spent is preserved
by every sequence of credit and debit operations, and on each single
operation both fields move together: a successful add_balance raises the
balance and total_recharged by the same amount in one update, and a
successful positive deduct_balance lowers the balance and raises
total_spent by the same amount in one update. -/
theorem balance_invariant_preserved (s : Store) (ops : List Op)
    (hinv : BalanceInv s) :
    BalanceInv (ops.foldl apply_op s) ∧
    (∀ uid amount s2, add_balance s uid amount = .ok s2 →
      get_balance s2 uid = get_balance s uid + amount ∧
      (get_balance_info s2 uid).total_recharged =
        (get_balance_info s uid).total_recharged + amount) ∧
    (∀ uid amount feature, 0 < amount → amount ≤ get_balance s uid →
      (deduct_balance s uid amount feature).1 = true ∧
      get_balance (deduct_balance s uid amount feature).2 uid =
        get_balance s uid - amount ∧
      (get_balance_info (deduct_balance s uid amount feature).2 uid).total_spent =
        (get_balance_info s uid).total_spent + amount) := by
  refine ⟨?_, fun uid amount s2 hab => add_balance_delta hab,
          fun uid amount feature hpos hsuf => ?_⟩
  · induction ops generalizing s with
    | nil => exact hinv
    | cons op rest ih =>
      exact ih (apply_op s op) (apply_op_preserves_inv s op hinv)
  · rcases deduct_balance_success_delta feature hpos hsuf with ⟨h1, h2, h3, _⟩
    exact ⟨h1, h2, h3⟩

theorem balance_invariant_preserved_witness :
    BalanceInv (([Op.credit "u1" 5, Op.debit "u1" 2 "chat"]).foldl apply_op
      emptyStore) :=
  (balance_invariant_preserved emptyStore [Op.credit "u1" 5, Op.debit "u1" 2 "chat"]
    (by intro r hr; exact absurd hr (by simp [emptyStore]))).1

theorem increment_usage_delta (s : Store) (uid today : String)
    (fld : UsageField) :
    get_daily_usage (increment_usage s uid today fld) uid today fld =
      get_daily_usage s uid today fld + 1 := by
  unfold increment_usage get_daily_usage
  by_cases hany : s.daily_usage.any (fun r =>
      decide (r.user_id = uid ∧ r.usage_date = today)) = true
  · rw [if_pos hany]
    have hmap := find?_map_update
      (fun r : UsageRow => r.user_id = uid ∧ r.usage_date = today)
      (bump_usage_field fld) (fun r => by cases fld <;> exact Iff.rfl)
      s.daily_usage
    rcases List.any_eq_true.mp hany with ⟨x, hxmem, hx⟩
    have hsome : (s.daily_usage.find? (fun r =>
        decide (r.user_id = uid ∧ r.usage_date = today))).isSome :=
      List.find?_isSome.mpr ⟨x, hxmem, hx⟩
    rcases Option.isSome_iff_exists.mp hsome with ⟨r, hr⟩
    simp only [hmap, hr]
    cases fld <;> rfl
  · rw [if_neg hany]
    have hnone : s.daily_usage.find? (fun r =>
        decide (r.user_id = uid ∧ r.usage_date = today)) = none := by
      rw [List.find?_eq_none]
      intro x hx hcon
      exact hany (List.any_eq_true.mpr ⟨x, hx, hcon⟩)
    rw [hnone]
    cases fld <;> simp [List.find?_cons, bump_usage_field]

/-- C6: inside the daily free limit a use of the feature is allowed free of
charge and only increments the day's counter; once today's count has
reached the limit, and in particular always when the limit is 0, the
(N+1)-th use takes the paid path: allowed with the balance debited by the
unit price when the balance suffices, denied with the insufficiency message
and an unchanged store otherwise. -/
theorem check_and_deduct_free_quota_boundary
    (lookup : String → Option FeatureConfig) (feature : String) (s : Store)
    (uid today : String) (cfg : FeatureConfig)
    (hcfg : lookup feature = some cfg) (hp : 0 ≤ cfg.price) :
    (∀ fld, cfg.usage_field = some fld → 0 < cfg.free_limit →
      get_daily_usage s uid today fld < cfg.free_limit →
      (check_and_deduct lookup feature s uid today).1.allowed = true ∧
      (check_and_deduct lookup feature s uid today).1.is_free = true ∧
      (check_and_deduct lookup feature s uid today).1.cost = 0 ∧
      get_daily_usage (check_and_deduct lookup feature s uid today).2 uid
          today fld =
        get_daily_usage s uid today fld + 1 ∧
      (check_and_deduct lookup feature s uid today).2.user_balances =
        s.user_balances ∧
      (check_and_deduct lookup feature s uid today).2.spend_records =
        s.spend_records) ∧
    (¬ (0 < cfg.free_limit ∧ used_count cfg s uid today < cfg.free_limit) →
      (get_balance s uid < cfg.price →
        check_and_deduct lookup feature s uid today =
          (⟨false, false, cfg.price, 0, get_balance s uid,
            build_insufficient_message feature cfg.price (get_balance s uid)
              cfg.free_limit⟩, s)) ∧
      (cfg.price ≤ get_balance s uid →
        (check_and_deduct lookup feature s uid today).1.allowed = true ∧
        (check_and_deduct lookup feature s uid today).1.is_free = false ∧
        (check_and_deduct lookup feature s uid today).1.cost = cfg.price ∧
        get_balance (check_and_deduct lookup feature s uid today).2 uid =
          get_balance s uid - cfg.price)) := by
  constructor
  · intro fld hfld hN hused
    have hcond : 0 < cfg.free_limit ∧
        used_count cfg s uid today < cfg.free_limit := by
      refine ⟨hN, ?_⟩
      unfold used_count
      rw [hfld]
      exact hused
    have heval : check_and_deduct lookup feature s uid today =
        (⟨true, true, 0, (cfg.free_limit : Int) - used_count cfg s uid today - 1,
          get_balance (increment_usage s uid today fld) uid, ""⟩,
         increment_usage s uid today fld) := by
      unfold check_and_deduct
      rw [hcfg]
      dsimp only
      rw [if_pos hcond, hfld]
    rw [heval]
    exact ⟨rfl, rfl, rfl, increment_usage_delta s uid today fld, rfl, rfl⟩
  · intro hncond
    constructor
    · intro hlt
      unfold check_and_deduct
      rw [hcfg]
      dsimp only
      rw [if_neg hncond, if_pos hlt]
    · intro hge
      by_cases hple : cfg.price ≤ 0
      · have hded : deduct_balance s uid cfg.price feature = (true, s) := by
          unfold deduct_balance
          rw [if_pos hple]
        have hzero : cfg.price = 0 := le_antisymm hple hp
        have heval : check_and_deduct lookup feature s uid today =
            (⟨true, false, cfg.price, 0,
              get_balance (match cfg.usage_field with
                | some fld => increment_usage s uid today fld
                | none => s) uid, ""⟩,
             (match cfg.usage_field with
              | some fld => increment_usage s uid today fld
              | none => s)) := by
          unfold check_and_deduct
          rw [hcfg]
          dsimp only
          rw [if_neg hncond, if_neg (not_lt.mpr hge), hded]
        rw [heval]
        refine ⟨rfl, rfl, rfl, ?_⟩
        rw [hzero, sub_zero]
        cases hfld : cfg.usage_field with
        | none => rfl
        | some fld => exact get_balance_congr uid rfl
      · have hppos : 0 < cfg.price := not_le.mp hple
        rcases deduct_balance_success_delta feature hppos hge with
          ⟨hsucc, hbal, _, _⟩
        have hded : deduct_balance s uid cfg.price feature =
            (true, (deduct_balance s uid cfg.price feature).2) := by
          rw [← hsucc]
        have heval : check_and_deduct lookup feature s uid today =
            (⟨true, false, cfg.price, 0,
              get_balance (match cfg.usage_field with
                | some fld => increment_usage
                    (deduct_balance s uid cfg.price feature).2 uid today fld
                | none => (deduct_balance s uid cfg.price feature).2) uid, ""⟩,
             (match cfg.usage_field with
              | some fld => increment_usage
                  (deduct_balance s uid cfg.price feature).2 uid today fld
              | none => (deduct_balance s uid cfg.price feature).2)) := by
          unfold check_and_deduct
          rw [hcfg]
          dsimp only
          rw [if_neg hncond, if_neg (not_lt.mpr hge), hded]
        rw [heval]
        refine ⟨rfl, rfl, rfl, ?_⟩
        cases hfld : cfg.usage_field with
        | none => exact hbal
        | some fld =>
          rw [show get_balance (increment_usage
              (deduct_balance s uid cfg.price feature).2 uid today fld) uid =
              get_balance (deduct_balance s uid cfg.price feature).2 uid from
            get_balance_congr uid rfl]
          exact hbal

theorem get_pending_order_props {s : Store} {addr : String} {o : OrderRow}
    (h : get_pending_order_by_address s addr = some o) :
    o ∈ s.recharge_orders ∧ o.deposit_address = addr ∧
    o.status = OrderStatus.pending := by
  unfold get_pending_order_by_address at h
  have hmem := head?_eq_some_mem h
  rw [List.mem_filter] at hmem
  have hprops := of_decide_eq_true hmem.2
  exact ⟨hmem.1, hprops.1, hprops.2⟩


theorem confirm_ok_analysis {s : Store} {addr : String} {amount : ℚ}
    {tx fromAddr : String} {now : Nat} {oid : String} {u o1 : String}
    {s1 : Store}
    (h : confirm_order_by_address s addr amount tx fromAddr now oid =
      (.ok u o1, s1)) :
    tx_hash_used s1 tx ∧
    (u ≠ "" → get_balance s1 u = get_balance s u + amount) := by
  unfold confirm_order_by_address at h
  by_cases hdup : tx ≠ "" ∧ tx_hash_used s tx
  · rw [if_pos hdup] at h
    exact absurd h (by simp)
  · rw [if_neg hdup] at h
    cases hpend : get_pending_order_by_address s addr with
    | some o =>
      rw [hpend] at h
      dsimp only at h
      rcases get_pending_order_props hpend with ⟨hoMem, hoAddr, hoSt⟩
      have hmemUpd : ∀ st : Store,
          st.recharge_orders = s.recharge_orders.map (fun r =>
            if r.order_id = o.order_id then
              { r with status := OrderStatus.confirmed, amount := amount,
                       tx_hash := some tx, from_address := some fromAddr,
                       confirmed_at := some now }
            else r) →
          tx_hash_used st tx := by
        intro st hst
        unfold tx_hash_used
        rw [hst]
        exact ⟨{ o with status := OrderStatus.confirmed, amount := amount, tx_hash := some tx, from_address := some fromAddr, confirmed_at := some now }, List.mem_map.mpr ⟨o, hoMem, by rw [if_pos rfl]⟩, rfl, Or.inl rfl⟩
      by_cases hou : o.user_id = ""
      · have hou' : ¬ (o.user_id ≠ "") := not_not_intro hou
        rw [if_neg hou'] at h
        split at h
        next hm =>
          split at h
          next e heq => exact absurd h (by simp)
          next s2 heq =>
            simp only [Prod.mk.injEq, ConfirmResult.ok.injEq] at h
            rcases h with ⟨⟨hu, _⟩, hs1⟩
            subst hs1
            exact ⟨hmemUpd _ (add_balance_frame heq).1,
                   fun huNe => absurd hou (by rw [hu]; exact huNe)⟩
        next hm =>
          simp only [Prod.mk.injEq, ConfirmResult.ok.injEq] at h
          rcases h with ⟨⟨hu, _⟩, hs1⟩
          subst hs1
          exact ⟨hmemUpd _ rfl,
                 fun huNe => absurd hou (by rw [hu]; exact huNe)⟩
      · have hou' : o.user_id ≠ "" := hou
        rw [if_pos hou'] at h
        rw [if_pos hou'] at h
        split at h
        next e heq => exact absurd h (by simp)
        next s2 heq =>
          simp only [Prod.mk.injEq, ConfirmResult.ok.injEq] at h
          rcases h with ⟨⟨hu, _⟩, hs1⟩
          subst hs1
          refine ⟨hmemUpd _ (add_balance_frame heq).1, fun _ => ?_⟩
          rcases add_balance_delta heq with ⟨hbal, _⟩
          rw [← hu, hbal]
          rfl
    | none =>
      rw [hpend] at h
      dsimp only at h
      cases huser : get_user_by_address s addr with
      | none =>
        rw [huser] at h
        exact absurd h (by simp)
      | some uid0 =>
        rw [huser] at h
        dsimp only at h
        split at h
        next hu0 => exact absurd h (by simp)
        next hu0 =>
          split at h
          next e heq => exact absurd h (by simp)
          next s2 heq =>
            simp only [Prod.mk.injEq, ConfirmResult.ok.injEq] at h
            rcases h with ⟨⟨hu, _⟩, hs1⟩
            subst hs1
            constructor
            · unfold tx_hash_used
              rw [(add_balance_frame heq).1]
              exact ⟨⟨uid0, oid, amount, addr, OrderStatus.confirmed,
                      some tx, none, some fromAddr, now, some now, none⟩,
                     List.mem_cons_self _ _, rfl, Or.inl rfl⟩
            · intro _
              rcases add_balance_delta heq with ⟨hbal, _⟩
              rw [← hu, hbal]
              rfl

/-- C1 (amended): for a non-empty tx_hash, when a first call to
confirm_order_by_address succeeds (returns an order for user u), it credits
that user's balance by the amount exactly once, and a second call with the
same deposit_address, amount and tx_hash finds a confirmed or swept order
already carrying that tx_hash, returns None, and leaves the whole store,
in particular balance and total_recharged, unchanged. With an empty
tx_hash the duplicate guard is skipped and a second call can credit
again. -/
theorem confirm_order_by_address_idempotent (s : Store) (addr : String)
    (amount : ℚ) (tx fromAddr : String) (n1 n2 : Nat) (oid1 oid2 : String)
    (u o1 : String) (s1 : Store) (htx : tx ≠ "")
    (h : confirm_order_by_address s addr amount tx fromAddr n1 oid1 =
      (.ok u o1, s1)) :
    confirm_order_by_address s1 addr amount tx fromAddr n2 oid2 =
      (.skipped, s1) ∧
    (u ≠ "" → get_balance s1 u = get_balance s u + amount) := by
  rcases confirm_ok_analysis h with ⟨hused, hdelta⟩
  refine ⟨?_, hdelta⟩
  unfold confirm_order_by_address
  rw [if_pos ⟨htx, hused⟩]

def c1_store0 : Store :=
  ⟨[], [⟨"u1", 0, "0xa"⟩],
   [⟨"u1", "R1", 0, "0xa", .pending, none, none, none, 0, none, none⟩],
   [], []⟩

def c1_store1 : Store :=
  ⟨[⟨"u1", 5, 5, 0⟩], [⟨"u1", 0, "0xa"⟩],
   [⟨"u1", "R1", 5, "0xa", .confirmed, some "0xh", none, some "0xf", 0,
     some 1, none⟩],
   [], []⟩

theorem confirm_order_by_address_idempotent_witness :
    confirm_order_by_address c1_store1 "0xa" 5 "0xh" "0xf" 2 "A2" =
      (.skipped, c1_store1) ∧
    (("u1" : String) ≠ "" →
      get_balance c1_store1 "u1" = get_balance c1_store0 "u1" + 5) :=
  confirm_order_by_address_idempotent c1_store0 "0xa" 5 "0xh" "0xf" 1 2
    "R0" "A2" "u1" "R1" c1_store1 (by decide) (by decide)

def c1_empty_tx_store1 : Store :=
  ⟨[⟨"u1", 5, 5, 0⟩], [⟨"u1", 0, "0xa"⟩],
   [⟨"u1", "R1", 5, "0xa", .confirmed, some "", none, some "0xf", 0,
     some 1, none⟩],
   [], []⟩

def c1_after_second : Store :=
  ⟨[⟨"u1", 5 + 5, 5 + 5, 0⟩], [⟨"u1", 0, "0xa"⟩],
   [⟨"u1", "A2", 5, "0xa", .confirmed, some "", none, some "0xf", 2,
     some 2, none⟩,
    ⟨"u1", "R1", 5, "0xa", .confirmed, some "", none, some "0xf", 0,
     some 1, none⟩],
   [], []⟩

/-- C1 counterexample: with an empty tx_hash (the Python guard `if tx_hash:`
is skipped) a first call confirms the pending order and credits 5; the
second identical call does not return None: it synthesizes a fresh
confirmed order for the same address and credits the user again, leaving
the balance at 10 instead of 5. -/
theorem confirm_order_by_address_empty_tx_double_credit :
    confirm_order_by_address c1_store0 "0xa" 5 "" "0xf" 1 "A1" =
      (.ok "u1" "R1", c1_empty_tx_store1) ∧
    get_balance c1_empty_tx_store1 "u1" = 5 ∧
    confirm_order_by_address c1_empty_tx_store1 "0xa" 5 "" "0xf" 2 "A2" =
      (.ok "u1" "A2", c1_after_second) ∧
    (ConfirmResult.ok "u1" "A2") ≠ ConfirmResult.skipped ∧
    get_balance c1_after_second "u1" = 10 := by
  refine ⟨by decide, by decide, rfl, by decide, ?_⟩
  show ((5 : ℚ) + 5) = 10
  norm_num

theorem check_and_deduct_free_quota_boundary_witness :
    (check_and_deduct (feature_config 1 10 1 1 1) "tarot_reading" emptyStore
        "u1" "2026-10-12").1.allowed = true ∧
    (check_and_deduct (feature_config 1 10 1 1 1) "tarot_reading" emptyStore
        "u1" "2026-10-12").1.is_free = true ∧
    (check_and_deduct (feature_config 1 10 1 1 1) "tarot_reading" emptyStore
        "u1" "2026-10-12").1.cost = 0 ∧
    get_daily_usage (check_and_deduct (feature_config 1 10 1 1 1)
        "tarot_reading" emptyStore "u1" "2026-10-12").2 "u1" "2026-10-12"
        UsageField.tarot_count =
      get_daily_usage emptyStore "u1" "2026-10-12" UsageField.tarot_count + 1 ∧
    (check_and_deduct (feature_config 1 10 1 1 1) "tarot_reading" emptyStore
        "u1" "2026-10-12").2.user_balances = emptyStore.user_balances ∧
    (check_and_deduct (feature_config 1 10 1 1 1) "tarot_reading" emptyStore
        "u1" "2026-10-12").2.spend_records = emptyStore.spend_records :=
  (check_and_deduct_free_quota_boundary (feature_config 1 10 1 1 1)
    "tarot_reading" emptyStore "u1" "2026-10-12"
    ⟨1, 1, some UsageField.tarot_count⟩ (by decide) (by decide)).1
    UsageField.tarot_count rfl (by decide) (by decide)
